import Mathlib

/-!
A shallow embedding of the `script-loader` repository (`src/index.js`).

Modelling conventions:

* A script load is asynchronous in the source; here the outcome of loading a
  given script name is supplied by an environment `LoadEnv` mapping each name
  to a success flag, a wall-clock duration in milliseconds, and (on failure)
  the underlying error value passed to `onerror`.  `Date.now()` is modelled by
  an explicit clock (`Nat`, milliseconds) threaded through the functions.
* The DOM containers (`staticContainer`, `dynamicContainer`) are modelled as
  the lists of script names appended to them (`appendChild` becomes a list
  append); the surrounding log-window / styling glue is presentation and is
  not modelled.
* Each function returns, besides its value, a trace of observable events
  (load issuance, load completion, progress, promise resolution, finish).
  Progress events are emitted exactly where the source calls
  `this.log("progress", ...)`, i.e. only under `useLogger`; the `finish`
  event marks the invocation of `this.finish()` (which always records the
  session end time; the `useLogger` test inside `finish` gates only the
  console / log-window rendering of the already-determined payload).
* The two group loads started by `load` are concurrent in the source
  (`Promise.all`); the interpreter here serialises them (statics first,
  then dynamics).  No claim below concerns the interleaving between the
  two groups, only per-group ordering and the join, which the
  serialisation preserves.
-/

namespace ScriptLoader

/-- The environment's verdict for one script name: whether the browser load
succeeds, how long it takes in milliseconds, and the opaque error value
handed to `onerror` when it fails. -/
structure EnvOutcome where
  ok : Bool
  dur : Nat
  errVal : String
deriving Repr, DecidableEq

/-- The asynchronous world: what happens when a given script name is loaded. -/
abbrev LoadEnv := String → EnvOutcome

/-- Loader instance state: the two script containers (lists of appended
script names), and the session timing fields `startTime` / `endTime`
(milliseconds; `endTime` is `none` until `finish` runs).  The `main` script
is appended to the static container, as in `loadScript(true, scriptObject.main)`. -/
structure LoaderState where
  staticContainer : List String
  dynamicContainer : List String
  startTime : Nat
  endTime : Option Nat
deriving Repr, DecidableEq

/-- The reject value built in `loadScript`'s `onerror` handler:
`{isSuccess: false, time, payload: err}` (the spec's `ResourceLoadError`).
`time` is elapsed seconds, `payload` the underlying error value. -/
structure ResourceLoadError where
  time : ℚ
  payload : String
deriving Repr, DecidableEq

/-- The resolve value built in `loadScript`'s `onload` handler:
`{isSuccess: true, time, payload: {message}}`. -/
structure SuccessOutcome where
  time : ℚ
  message : String
deriving Repr, DecidableEq

/-- The possible error values a group load could deliver.  `resource e` is
the bare reject object produced by `loadScript` (what the source actually
delivers, passed through `.catch((err) => reject(err))` unmodified).
`group e` is Modelled from the spec: a `GroupLoadError` wrapper around the
first `ResourceLoadError` of a group.  The source contains no such wrapper;
the constructor exists only so that the spec's claim about it can be stated
and compared against what the source delivers. -/
inductive LoadError where
  | resource (e : ResourceLoadError)
  | group (e : ResourceLoadError)
deriving Repr, DecidableEq

/-- Observable events of a pipeline run.  Group-level load events carry the
position (`counter` value) of the script within its group.  `mainStart`,
`mainDone`, `mainFail` mark the main-resource load; `resolved` marks the
resolution of the promise returned by `load`; `finish q` marks the call of
`this.finish()` with total elapsed seconds `q`. -/
inductive Event where
  | loadStart (isStatic : Bool) (idx : Nat) (name : String)
  | loadDone (idx : Nat) (name : String)
  | loadFail (idx : Nat) (name : String)
  | progress (value : Nat) (total : Nat)
  | mainStart (name : String)
  | mainDone (name : String)
  | mainFail (name : String)
  | resolved
  | finish (total : ℚ)
deriving Repr, DecidableEq

deriving instance DecidableEq for Except

/-- Result of running an asynchronous piece of the pipeline: the event
trace, the final loader state, the final clock, and the settled value of
the promise (`.ok ()` for resolution, `.error e` for rejection). -/
structure RunResult where
  trace : List Event
  state : LoaderState
  clock : Nat
  result : Except LoadError Unit
deriving Repr, DecidableEq

/-- The `appendChild` step of `loadScript` (src/index.js lines 197-201):
the script element goes into the static or the dynamic container. -/
def appendScript (isStatic : Bool) (name : String) (st : LoaderState) :
    LoaderState :=
  if isStatic then { st with staticContainer := st.staticContainer ++ [name] }
  else { st with dynamicContainer := st.dynamicContainer ++ [name] }

/-- Embedding of `loadScript(isStatic, name)` (src/index.js lines 152-203):
appends the script element to the chosen container, waits for the load to
settle (advancing the clock by the environment's duration), and settles
with the success object or the failure object, each carrying the elapsed
time `(endTime - startTime) / 1000` in seconds. -/
def loadScript (env : LoadEnv) (isStatic : Bool) (name : String)
    (st : LoaderState) (now : Nat) :
    Except LoadError SuccessOutcome × LoaderState × Nat :=
  let startTime := now
  let o := env name
  let endTime := startTime + o.dur
  let totalTime : ℚ := ((endTime : ℚ) - (startTime : ℚ)) / 1000
  let st' : LoaderState := appendScript isStatic name st
  if o.ok then
    (.ok { time := totalTime,
           message := "*" ++ name ++ " script loaded." },
     st', endTime)
  else
    (.error (.resource { time := totalTime, payload := o.errVal }),
     st', endTime)

/-- Embedding of the `loadLoop` closure inside `loadScripts`
(src/index.js lines 111-135).  `total` is `scripts.length` of the whole
group and `rest` is the suffix of the group from position `counter` on,
so that `rest`'s head is `scripts[counter]`.  Mirrors the source exactly:
the loop body runs only when `scripts[counter]` is truthy (a nonempty
string); after a successful load it emits the progress event
`{value: counter+1, total}` when the logger is on, and either resolves
(when `counter + 1 >= scripts.length`) or recurses. -/
def loadLoop (u : Bool) (env : LoadEnv) (isStatic : Bool) (total : Nat) :
    Nat → List String → LoaderState → Nat → RunResult
  | _, [], st, now => ⟨[], st, now, .ok ()⟩
  | counter, s :: rest', st, now =>
    if s = "" then ⟨[], st, now, .ok ()⟩
    else
      match loadScript env isStatic s st now with
      | (.ok _, st', now') =>
        let evs := [Event.loadStart isStatic counter s, Event.loadDone counter s]
          ++ (if u then [Event.progress (counter + 1) total] else [])
        if counter + 1 ≥ total then ⟨evs, st', now', .ok ()⟩
        else
          let r := loadLoop u env isStatic total (counter + 1) rest' st' now'
          ⟨evs ++ r.trace, r.state, r.clock, r.result⟩
      | (.error e, st', now') =>
        ⟨[Event.loadStart isStatic counter s, Event.loadFail counter s],
         st', now', .error e⟩

/-- Embedding of `loadScripts(isStatic, scripts)` (src/index.js lines
107-140): runs `loadLoop` from `counter = 0`. -/
def loadScripts (u : Bool) (env : LoadEnv) (isStatic : Bool)
    (scripts : List String) (st : LoaderState) (now : Nat) : RunResult :=
  loadLoop u env isStatic scripts.length 0 scripts st now

/-- Embedding of `finish()` (src/index.js lines 205-212): records the
session end time and signals completion with the total elapsed seconds
`(endTime - startTime) / 1000`.  (The `useLogger` test inside the source's
`finish` gates only the console rendering of this payload.) -/
def finish (st : LoaderState) (now : Nat) : LoaderState × Event :=
  ({ st with endTime := some now },
   Event.finish (((now : ℚ) - (st.startTime : ℚ)) / 1000))

/-- A well-formed load request at the `load` level:
`{statics, dynamics, main}` with an absent field represented by `[]` /
`none`.  (The quirks of the `ScriptObject` factory's defaults are modelled
separately below.) -/
structure LoadRequest where
  statics : List String := []
  dynamics : List String := []
  main : Option String := none
deriving Repr, DecidableEq

/-- Truthiness of the `main` field as tested by `if (scriptObject.main)`:
an absent field or the empty string is falsy. -/
def LoadRequest.mainTruthy (req : LoadRequest) : Bool :=
  match req.main with
  | some m => m ≠ ""
  | none => false

/-- Embedding of `load(scriptObject)` (src/index.js lines 54-95).  Starts
the static group when `statics.length > 0`, then the dynamic group when
`dynamics.length > 0` (serialised here; see the header note), joins them
as `Promise.all` does, and on joint success, when `main` is truthy, starts
`loadScript(true, main)`; the returned promise resolves as soon as that
callback returns — before the main load settles — and the main load's
settlement is only observed by the dangling `.then(() => this.finish())`:
its rejection is unhandled and never reaches the returned promise.
`loadGroupsPhase` is the first half of `load` (src/index.js lines 58-86):
the `promises` list and its `Promise.all` join; its `result` is the settled
value of `Promise.all(promises)`. -/
def loadGroupsPhase (u : Bool) (env : LoadEnv) (req : LoadRequest)
    (st : LoaderState) (now : Nat) : RunResult :=
  let r1 : RunResult :=
    if req.statics.length > 0 then loadScripts u env true req.statics st now
    else ⟨[], st, now, .ok ()⟩
  let r2 : RunResult :=
    if req.dynamics.length > 0 then
      loadScripts u env false req.dynamics r1.state r1.clock
    else ⟨[], r1.state, r1.clock, .ok ()⟩
  let res : Except LoadError Unit :=
    match r1.result, r2.result with
    | .error e, _ => .error e
    | .ok _, .error e => .error e
    | .ok _, .ok _ => .ok ()
  ⟨r1.trace ++ r2.trace, r2.state, r2.clock, res⟩

/-- The second half of `load` (src/index.js lines 86-94): on rejection of
`Promise.all` the returned promise rejects with the same error; on success
it runs the `then` callback — starting the main load when `main` is truthy
— and resolves when that callback returns, before the main load settles. -/
def load (u : Bool) (env : LoadEnv) (req : LoadRequest)
    (st : LoaderState) (now : Nat) : RunResult :=
  let g := loadGroupsPhase u env req st now
  match g.result with
  | .error e => ⟨g.trace, g.state, g.clock, .error e⟩
  | .ok _ =>
    match req.main with
    | none => ⟨g.trace ++ [Event.resolved], g.state, g.clock, .ok ()⟩
    | some m =>
      if m = "" then ⟨g.trace ++ [Event.resolved], g.state, g.clock, .ok ()⟩
      else
        match loadScript env true m g.state g.clock with
        | (.ok _, st3, now3) =>
          let f := finish st3 now3
          ⟨g.trace ++ [Event.mainStart m, Event.resolved, Event.mainDone m, f.2],
           f.1, now3, .ok ()⟩
        | (.error _, st3, now3) =>
          ⟨g.trace ++ [Event.mainStart m, Event.resolved, Event.mainFail m],
           st3, now3, .ok ()⟩

/-- Embedding of `init(scriptObject)` (src/index.js lines 30-39): records
the session start time and begins `load` (container setup and the `init`
log event are presentation). -/
def init (u : Bool) (env : LoadEnv) (req : LoadRequest) (now : Nat) : RunResult :=
  load u env req
    { staticContainer := [], dynamicContainer := [], startTime := now,
      endTime := none } now

/-- Embedding of `reset()` (src/index.js lines 259-261): clears the
dynamic container (`this.dynamicContainer.innerHTML = ""`) and nothing
else. -/
def reset (st : LoaderState) : LoaderState :=
  { st with dynamicContainer := [] }

/-! ### The `ScriptObject` factory with JavaScript value semantics

`ScriptObject` (src/index.js lines 274-282) destructures its argument with
the defaults `statics = Array, dynamics = Array, main = String` — i.e. the
global `Array` and `String` *constructor functions*, not empty values.  To
state claims about absent fields we model just enough of JavaScript's
value/truthiness semantics. -/

/-- The JavaScript values that can inhabit a `ScriptObject` field here:
`undefined` (absent field), a string, an array of strings, or the global
`Array` / `String` constructor functions (the destructuring defaults). -/
inductive JSVal where
  | undef
  | str (s : String)
  | arr (xs : List String)
  | fnArray
  | fnString
deriving Repr, DecidableEq

/-- JavaScript truthiness: `undefined` is falsy, a string is truthy iff
nonempty, arrays and functions are truthy. -/
def JSVal.truthy : JSVal → Bool
  | .undef => false
  | .str s => s ≠ ""
  | .arr _ => true
  | .fnArray => true
  | .fnString => true

/-- The `.length` property: string length, array length, and `1` for both
`Array` and `String` (a JavaScript function's `.length` is its arity;
`Array.length === 1` and `String.length === 1`). -/
def JSVal.lengthVal : JSVal → Nat
  | .undef => 0
  | .str s => s.length
  | .arr xs => xs.length
  | .fnArray => 1
  | .fnString => 1

/-- The argument of the `ScriptObject` factory: each field either present
with a value or absent (`undef`). -/
structure ScriptObjectInput where
  statics : JSVal := .undef
  dynamics : JSVal := .undef
  main : JSVal := .undef
deriving Repr, DecidableEq

/-- The object the factory returns. -/
structure RawScriptObject where
  statics : JSVal
  dynamics : JSVal
  main : JSVal
deriving Repr, DecidableEq

/-- Embedding of the `ScriptObject` factory (src/index.js lines 274-282):
`const { statics = Array, dynamics = Array, main = String } = scriptsByType`
— a destructuring default fires exactly when the property is `undefined`,
and the written defaults are the constructor functions themselves. -/
def ScriptObject (i : ScriptObjectInput) : RawScriptObject :=
  { statics := if i.statics = .undef then .fnArray else i.statics,
    dynamics := if i.dynamics = .undef then .fnArray else i.dynamics,
    main := if i.main = .undef then .fnString else i.main }

/-- The guard on line 61 of `load`:
`scriptObject.statics && scriptObject.statics.length > 0`. -/
def staticsGroupStarted (r : RawScriptObject) : Bool :=
  r.statics.truthy && decide (r.statics.lengthVal > 0)

/-- The guard on line 74 of `load`:
`scriptObject.dynamics && scriptObject.dynamics.length > 0`. -/
def dynamicsGroupStarted (r : RawScriptObject) : Bool :=
  r.dynamics.truthy && decide (r.dynamics.lengthVal > 0)

/-- The guard on line 88 of `load`: `if (scriptObject.main)` — when this
holds, `load` calls `this.loadScript(true, scriptObject.main)`, i.e. a
main-resource load is attempted. -/
def mainLoadAttempted (r : RawScriptObject) : Bool :=
  r.main.truthy

/-! ### Event classifiers -/

/-- Events that a group load (`loadScripts`) can emit. -/
def Event.isGroupEvent : Event → Bool
  | .loadStart _ _ _ => true
  | .loadDone _ _ => true
  | .loadFail _ _ => true
  | .progress _ _ => true
  | _ => false

/-- Progress events. -/
def Event.isProgress : Event → Bool
  | .progress _ _ => true
  | _ => false

/-- Finish events. -/
def Event.isFinish : Event → Bool
  | .finish _ => true
  | _ => false

/-- Events marking an invocation of `loadScript` (a load attempt), either
within a group or for the main resource. -/
def Event.isLoadCall : Event → Bool
  | .loadStart _ _ _ => true
  | .mainStart _ => true
  | _ => false

/-- The `value` of a progress event. -/
def Event.progressValue : Event → Option Nat
  | .progress v _ => some v
  | _ => none

/-- The sequence of `value` components of the progress events of a trace,
in emission order. -/
def progressValues (t : List Event) : List Nat :=
  t.filterMap Event.progressValue

/-- Whether a settled group result is a rejection with the spec's
`GroupLoadError` wrapper. -/
def rejectedWithGroupWrapper (r : RunResult) : Bool :=
  match r.result with
  | .error (.group _) => true
  | _ => false

/-! ### Concrete data for witnesses and counterexamples -/

/-- An environment where every script loads successfully in 500 ms. -/
def envOk : LoadEnv := fun _ => ⟨true, 500, ""⟩

/-- An environment where exactly the script named "b" fails (in 250 ms,
with underlying error value "errB"); everything else succeeds. -/
def envFailB : LoadEnv := fun s =>
  if s = "b" then ⟨false, 250, "errB"⟩ else ⟨true, 100, ""⟩

/-- An environment where every script fails. -/
def envAllFail : LoadEnv := fun _ => ⟨false, 50, "boom"⟩

/-- An environment where exactly the script named "m" fails; everything
else succeeds. -/
def envFailM : LoadEnv := fun s =>
  if s = "m" then ⟨false, 80, "errM"⟩ else ⟨true, 100, ""⟩

/-- A fresh loader state with session start time 0. -/
def st0 : LoaderState :=
  { staticContainer := [], dynamicContainer := [], startTime := 0,
    endTime := none }

/-! ### Basic equations -/

theorem loadScript_ok (env : LoadEnv) (b : Bool) (name : String)
    (st : LoaderState) (now : Nat) (h : (env name).ok = true) :
    loadScript env b name st now =
      (.ok { time := ((env name).dur : ℚ) / 1000,
             message := "*" ++ name ++ " script loaded." },
       appendScript b name st, now + (env name).dur) := by
  simp only [loadScript, h, if_true]
  congr 2
  push_cast
  ring_nf

theorem loadScript_err (env : LoadEnv) (b : Bool) (name : String)
    (st : LoaderState) (now : Nat) (h : (env name).ok = false) :
    loadScript env b name st now =
      (.error (.resource { time := ((env name).dur : ℚ) / 1000,
                           payload := (env name).errVal }),
       appendScript b name st, now + (env name).dur) := by
  simp only [loadScript, h, Bool.false_eq_true, if_false]
  congr 3
  push_cast
  ring_nf

theorem loadLoop_nil (u : Bool) (env : LoadEnv) (b : Bool) (total : Nat)
    (counter : Nat) (st : LoaderState) (now : Nat) :
    loadLoop u env b total counter [] st now = ⟨[], st, now, .ok ()⟩ := rfl

theorem loadLoop_cons_blank (u : Bool) (env : LoadEnv) (b : Bool) (total : Nat)
    (counter : Nat) (rest' : List String) (st : LoaderState) (now : Nat) :
    loadLoop u env b total counter ("" :: rest') st now =
      ⟨[], st, now, .ok ()⟩ := by
  simp [loadLoop]

theorem loadLoop_cons_ok_last (u : Bool) (env : LoadEnv) (b : Bool)
    (total : Nat) (counter : Nat) (s : String) (rest' : List String)
    (st : LoaderState) (now : Nat)
    (hs : s ≠ "") (ho : (env s).ok = true) (hl : counter + 1 ≥ total) :
    loadLoop u env b total counter (s :: rest') st now =
      ⟨Event.loadStart b counter s :: Event.loadDone counter s ::
         (if u then [Event.progress (counter + 1) total] else []),
       appendScript b s st, now + (env s).dur, .ok ()⟩ := by
  simp [loadLoop, hs, loadScript_ok env b s st now ho, hl]

theorem loadLoop_cons_ok_cont (u : Bool) (env : LoadEnv) (b : Bool)
    (total : Nat) (counter : Nat) (s : String) (rest' : List String)
    (st : LoaderState) (now : Nat)
    (hs : s ≠ "") (ho : (env s).ok = true) (hl : ¬ counter + 1 ≥ total) :
    loadLoop u env b total counter (s :: rest') st now =
      ⟨Event.loadStart b counter s :: Event.loadDone counter s ::
         ((if u then [Event.progress (counter + 1) total] else []) ++
           (loadLoop u env b total (counter + 1) rest'
             (appendScript b s st) (now + (env s).dur)).trace),
       (loadLoop u env b total (counter + 1) rest'
         (appendScript b s st) (now + (env s).dur)).state,
       (loadLoop u env b total (counter + 1) rest'
         (appendScript b s st) (now + (env s).dur)).clock,
       (loadLoop u env b total (counter + 1) rest'
         (appendScript b s st) (now + (env s).dur)).result⟩ := by
  simp [loadLoop, hs, loadScript_ok env b s st now ho, hl]

theorem loadLoop_cons_err (u : Bool) (env : LoadEnv) (b : Bool)
    (total : Nat) (counter : Nat) (s : String) (rest' : List String)
    (st : LoaderState) (now : Nat)
    (hs : s ≠ "") (ho : (env s).ok = false) :
    loadLoop u env b total counter (s :: rest') st now =
      ⟨[Event.loadStart b counter s, Event.loadFail counter s],
       appendScript b s st, now + (env s).dur,
       .error (.resource { time := ((env s).dur : ℚ) / 1000,
                           payload := (env s).errVal })⟩ := by
  simp [loadLoop, hs, loadScript_err env b s st now ho]

/-! ### Structural lemmas about group loads -/

theorem loadLoop_mem_isGroupEvent (u : Bool) (env : LoadEnv) (b : Bool)
    (total : Nat) :
    ∀ (rest : List String) (counter : Nat) (st : LoaderState) (now : Nat),
    ∀ e ∈ (loadLoop u env b total counter rest st now).trace,
      e.isGroupEvent = true := by
  intro rest
  induction rest with
  | nil =>
    intro counter st now e he
    simp [loadLoop_nil] at he
  | cons s rest' ih =>
    intro counter st now e he
    by_cases hs : s = ""
    · subst hs; rw [loadLoop_cons_blank] at he; simp at he
    · by_cases ho : (env s).ok = true
      · by_cases hl : counter + 1 ≥ total
        · rw [loadLoop_cons_ok_last u env b total counter s rest' st now hs ho hl] at he
          simp only [List.mem_cons] at he
          rcases he with rfl | rfl | he
          · rfl
          · rfl
          · cases u <;> simp_all [Event.isGroupEvent]
        · rw [loadLoop_cons_ok_cont u env b total counter s rest' st now hs ho hl] at he
          simp only [List.mem_cons, List.mem_append] at he
          rcases he with rfl | rfl | he | he
          · rfl
          · rfl
          · cases u <;> simp_all [Event.isGroupEvent]
          · exact ih (counter + 1) (appendScript b s st) (now + (env s).dur) e he
      · have ho' : (env s).ok = false := by simpa using ho
        rw [loadLoop_cons_err u env b total counter s rest' st now hs ho'] at he
        simp only [List.mem_cons] at he
        rcases he with rfl | rfl | he
        · rfl
        · rfl
        · simp at he

theorem loadScripts_mem_isGroupEvent (u : Bool) (env : LoadEnv) (b : Bool)
    (scripts : List String) (st : LoaderState) (now : Nat) :
    ∀ e ∈ (loadScripts u env b scripts st now).trace, e.isGroupEvent = true :=
  loadLoop_mem_isGroupEvent u env b scripts.length scripts 0 st now

theorem loadGroupsPhase_mem_isGroupEvent (u : Bool) (env : LoadEnv)
    (req : LoadRequest) (st : LoaderState) (now : Nat) :
    ∀ e ∈ (loadGroupsPhase u env req st now).trace, e.isGroupEvent = true := by
  intro e he
  simp only [loadGroupsPhase, List.mem_append] at he
  rcases he with h | h
  · split at h
    · exact loadScripts_mem_isGroupEvent u env true req.statics st now e h
    · simp at h
  · split at h
    · exact loadScripts_mem_isGroupEvent u env false req.dynamics _ _ e h
    · simp at h

theorem loadLoop_progress_ge (u : Bool) (env : LoadEnv) (b : Bool)
    (total : Nat) :
    ∀ (rest : List String) (counter : Nat) (st : LoaderState) (now : Nat),
    ∀ v ∈ progressValues (loadLoop u env b total counter rest st now).trace,
      counter + 1 ≤ v := by
  intro rest
  induction rest with
  | nil =>
    intro counter st now v hv
    simp [loadLoop_nil, progressValues] at hv
  | cons s rest' ih =>
    intro counter st now v hv
    by_cases hs : s = ""
    · subst hs; rw [loadLoop_cons_blank] at hv; simp [progressValues] at hv
    · by_cases ho : (env s).ok = true
      · by_cases hl : counter + 1 ≥ total
        · rw [loadLoop_cons_ok_last u env b total counter s rest' st now hs ho hl] at hv
          cases u <;> simp_all [progressValues, Event.progressValue]
        · rw [loadLoop_cons_ok_cont u env b total counter s rest' st now hs ho hl] at hv
          simp only [progressValues, List.filterMap_cons, List.filterMap_append,
            Event.progressValue, List.mem_append] at hv
          rcases hv with hv | hv
          · cases u <;> simp_all [Event.progressValue]
          · have := ih (counter + 1) (appendScript b s st) (now + (env s).dur) v
              (by simpa [progressValues] using hv)
            omega
      · have ho' : (env s).ok = false := by simpa using ho
        rw [loadLoop_cons_err u env b total counter s rest' st now hs ho'] at hv
        simp [progressValues, Event.progressValue] at hv

theorem loadLoop_progress_chain (u : Bool) (env : LoadEnv) (b : Bool)
    (total : Nat) :
    ∀ (rest : List String) (counter : Nat) (st : LoaderState) (now : Nat),
    List.Chain' (· < ·)
      (progressValues (loadLoop u env b total counter rest st now).trace) := by
  intro rest
  induction rest with
  | nil =>
    intro counter st now
    simp [loadLoop_nil, progressValues]
  | cons s rest' ih =>
    intro counter st now
    by_cases hs : s = ""
    · subst hs; rw [loadLoop_cons_blank]; simp [progressValues]
    · by_cases ho : (env s).ok = true
      · by_cases hl : counter + 1 ≥ total
        · rw [loadLoop_cons_ok_last u env b total counter s rest' st now hs ho hl]
          cases u <;> simp [progressValues, Event.progressValue]
        · rw [loadLoop_cons_ok_cont u env b total counter s rest' st now hs ho hl]
          simp only [progressValues, List.filterMap_cons, List.filterMap_append,
            Event.progressValue]
          cases u with
          | false =>
            simpa [progressValues] using
              ih (counter + 1) (appendScript b s st) (now + (env s).dur)
          | true =>
            simp only [if_true]
            rw [show List.filterMap Event.progressValue
                  [Event.progress (counter + 1) total] = [counter + 1] from rfl,
                List.singleton_append, List.chain'_cons']
            constructor
            · intro y hy
              have hy' : y ∈ (loadLoop true env b total (counter + 1) rest'
                  (appendScript b s st) (now + (env s).dur)).trace.filterMap
                    Event.progressValue := List.mem_of_mem_head? hy
              have := loadLoop_progress_ge true env b total rest' (counter + 1)
                (appendScript b s st) (now + (env s).dur) y
                (by simpa [progressValues] using hy')
              omega
            · simpa [progressValues] using
                ih (counter + 1) (appendScript b s st) (now + (env s).dur)
      · have ho' : (env s).ok = false := by simpa using ho
        rw [loadLoop_cons_err u env b total counter s rest' st now hs ho']
        simp [progressValues, Event.progressValue]

theorem loadLoop_preserves_times (u : Bool) (env : LoadEnv) (b : Bool)
    (total : Nat) :
    ∀ (rest : List String) (counter : Nat) (st : LoaderState) (now : Nat),
    (loadLoop u env b total counter rest st now).state.startTime = st.startTime ∧
    (loadLoop u env b total counter rest st now).state.endTime = st.endTime := by
  intro rest
  induction rest with
  | nil => intro counter st now; simp [loadLoop_nil]
  | cons s rest' ih =>
    intro counter st now
    have happ : ∀ b' s' st', (appendScript b' s' st').startTime = st'.startTime ∧
        (appendScript b' s' st').endTime = st'.endTime := by
      intro b' s' st'; cases b' <;> simp [appendScript]
    by_cases hs : s = ""
    · subst hs; rw [loadLoop_cons_blank]; exact ⟨rfl, rfl⟩
    · by_cases ho : (env s).ok = true
      · by_cases hl : counter + 1 ≥ total
        · rw [loadLoop_cons_ok_last u env b total counter s rest' st now hs ho hl]
          exact happ b s st
        · rw [loadLoop_cons_ok_cont u env b total counter s rest' st now hs ho hl]
          have h1 := ih (counter + 1) (appendScript b s st) (now + (env s).dur)
          have h2 := happ b s st
          exact ⟨h1.1.trans h2.1, h1.2.trans h2.2⟩
      · have ho' : (env s).ok = false := by simpa using ho
        rw [loadLoop_cons_err u env b total counter s rest' st now hs ho']
        exact happ b s st

theorem loadLoop_start_after_done (u : Bool) (env : LoadEnv) (b : Bool)
    (total : Nat) :
    ∀ (rest : List String) (counter : Nat) (st : LoaderState) (now : Nat)
      (l₁ l₂ : List Event) (bb : Bool) (i : Nat) (s : String),
    (loadLoop u env b total counter rest st now).trace =
      l₁ ++ Event.loadStart bb i s :: l₂ →
    (i = counter ∧ l₁ = []) ∨
    (counter < i ∧ ∃ s', Event.loadDone (i - 1) s' ∈ l₁) := by
  intro rest
  induction rest with
  | nil =>
    intro counter st now l₁ l₂ bb i s h
    rw [loadLoop_nil] at h
    cases l₁ <;> simp at h
  | cons s₀ rest' ih =>
    intro counter st now l₁ l₂ bb i s h
    by_cases hs : s₀ = ""
    · subst hs; rw [loadLoop_cons_blank] at h; cases l₁ <;> simp at h
    · by_cases ho : (env s₀).ok = true
      · by_cases hl : counter + 1 ≥ total
        · rw [loadLoop_cons_ok_last u env b total counter s₀ rest' st now hs ho hl] at h
          rcases l₁ with _ | ⟨e₀, l₁⟩
          · simp only [List.nil_append, List.cons.injEq] at h
            obtain ⟨h₀, -⟩ := h
            cases h₀
            exact Or.inl ⟨rfl, rfl⟩
          · simp only [List.cons_append, List.cons.injEq] at h
            obtain ⟨-, h⟩ := h
            rcases l₁ with _ | ⟨e₁, l₁⟩
            · simp only [List.nil_append, List.cons.injEq] at h
              obtain ⟨h₁, -⟩ := h
              cases h₁
            · simp only [List.cons_append, List.cons.injEq] at h
              obtain ⟨-, h⟩ := h
              cases u <;> rcases l₁ with _ | ⟨e₂, l₁⟩ <;> simp_all
        · rw [loadLoop_cons_ok_cont u env b total counter s₀ rest' st now hs ho hl] at h
          rcases l₁ with _ | ⟨e₀, l₁⟩
          · simp only [List.nil_append, List.cons.injEq] at h
            obtain ⟨h₀, -⟩ := h
            cases h₀
            exact Or.inl ⟨rfl, rfl⟩
          · simp only [List.cons_append, List.cons.injEq] at h
            obtain ⟨he₀, h⟩ := h
            rcases l₁ with _ | ⟨e₁, l₁⟩
            · simp only [List.nil_append, List.cons.injEq] at h
              obtain ⟨h₁, -⟩ := h
              cases h₁
            · simp only [List.cons_append, List.cons.injEq] at h
              obtain ⟨he₁, h⟩ := h
              cases u with
              | false =>
                simp at h
                rcases ih (counter + 1) (appendScript b s₀ st)
                    (now + (env s₀).dur) l₁ l₂ bb i s h with
                  ⟨hi, hl1⟩ | ⟨hlt, s', hmem⟩
                · subst hi
                  refine Or.inr ⟨by omega, s₀, ?_⟩
                  subst he₁
                  simp
                · exact Or.inr ⟨by omega, s', by simp [hmem]⟩
              | true =>
                rw [if_pos rfl] at h
                rcases l₁ with _ | ⟨e₂, l₁⟩
                · simp at h
                · simp only [List.singleton_append, List.cons_append,
                    List.cons.injEq] at h
                  obtain ⟨he₂, h⟩ := h
                  rcases ih (counter + 1) (appendScript b s₀ st)
                      (now + (env s₀).dur) l₁ l₂ bb i s h with
                    ⟨hi, hl1⟩ | ⟨hlt, s', hmem⟩
                  · subst hi
                    refine Or.inr ⟨by omega, s₀, ?_⟩
                    subst he₁
                    simp
                  · exact Or.inr ⟨by omega, s', by simp [hmem]⟩
      · have ho' : (env s₀).ok = false := by simpa using ho
        rw [loadLoop_cons_err u env b total counter s₀ rest' st now hs ho'] at h
        rcases l₁ with _ | ⟨e₀, l₁⟩
        · simp only [List.nil_append, List.cons.injEq] at h
          obtain ⟨h₀, -⟩ := h
          cases h₀
          exact Or.inl ⟨rfl, rfl⟩
        · simp only [List.cons_append, List.cons.injEq] at h
          obtain ⟨-, h⟩ := h
          rcases l₁ with _ | ⟨e₁, l₁⟩ <;> simp_all

theorem loadLoop_first_failure (u : Bool) (env : LoadEnv) (b : Bool)
    (total : Nat) :
    ∀ (k : Nat) (rest : List String) (counter : Nat) (st : LoaderState)
      (now : Nat) (s : String),
    counter + rest.length = total →
    rest.get? k = some s → s ≠ "" → (env s).ok = false →
    (∀ j, j < k → ∀ s', rest.get? j = some s' → s' ≠ "" ∧ (env s').ok = true) →
    (loadLoop u env b total counter rest st now).result =
      .error (.resource { time := ((env s).dur : ℚ) / 1000,
                          payload := (env s).errVal }) ∧
    ∀ e ∈ (loadLoop u env b total counter rest st now).trace,
      ∀ bb i s', e = Event.loadStart bb i s' → i ≤ counter + k := by
  intro k
  induction k with
  | zero =>
    intro rest counter st now s hinv hget hne hfail hpre
    rcases rest with _ | ⟨s₀, rest'⟩
    · simp at hget
    · simp only [List.get?] at hget
      injection hget with hget
      subst hget
      rw [loadLoop_cons_err u env b total counter s₀ rest' st now hne hfail]
      refine ⟨rfl, ?_⟩
      intro e he bb i s' hse
      simp only [List.mem_cons] at he
      rcases he with rfl | rfl | he
      · injection hse with h1 h2 h3; omega
      · simp at hse
      · simp at he
  | succ k ihk =>
    intro rest counter st now s hinv hget hne hfail hpre
    rcases rest with _ | ⟨s₀, rest'⟩
    · simp at hget
    · have h0 := hpre 0 (by omega) s₀ rfl
      have hk' : rest'.get? k = some s := hget
      have hklen : k < rest'.length := List.get?_eq_some.1 hk' |>.1
      have hl : ¬ counter + 1 ≥ total := by
        simp only [List.length_cons] at hinv
        omega
      rw [loadLoop_cons_ok_cont u env b total counter s₀ rest' st now h0.1 h0.2 hl]
      have hrec := ihk rest' (counter + 1) (appendScript b s₀ st)
        (now + (env s₀).dur) s
        (by simp only [List.length_cons] at hinv; omega)
        hk' hne hfail
        (fun j hj s' hjs => hpre (j + 1) (by omega) s' hjs)
      refine ⟨hrec.1, ?_⟩
      intro e he bb i s' hse
      simp only [List.mem_cons, List.mem_append] at he
      rcases he with rfl | rfl | he | he
      · injection hse with h1 h2 h3; omega
      · simp at hse
      · cases u <;> simp_all
      · have := hrec.2 e he bb i s' hse
        omega

theorem loadLoop_all_success (env : LoadEnv) (b : Bool) (total : Nat) :
    ∀ (rest : List String) (counter : Nat) (st : LoaderState) (now : Nat),
    counter + rest.length = total →
    (∀ s ∈ rest, s ≠ "" ∧ (env s).ok = true) →
    (loadLoop true env b total counter rest st now).result = .ok () ∧
    (loadLoop true env b total counter rest st now).trace.filter
        Event.isProgress =
      (List.range' (counter + 1) rest.length).map
        (fun v => Event.progress v total) := by
  intro rest
  induction rest with
  | nil =>
    intro counter st now hinv hok
    simp [loadLoop_nil, List.range']
  | cons s₀ rest' ih =>
    intro counter st now hinv hok
    have h0 := hok s₀ (List.mem_cons_self s₀ rest')
    by_cases hl : counter + 1 ≥ total
    · have hlen : rest'.length = 0 := by
        simp only [List.length_cons] at hinv; omega
      rw [loadLoop_cons_ok_last true env b total counter s₀ rest' st now
        h0.1 h0.2 hl]
      simp only [List.length_cons, hlen]
      simp [List.range', Event.isProgress]
    · rw [loadLoop_cons_ok_cont true env b total counter s₀ rest' st now
        h0.1 h0.2 hl]
      have hrec := ih (counter + 1) (appendScript b s₀ st) (now + (env s₀).dur)
        (by simp only [List.length_cons] at hinv; omega)
        (fun s hsm => hok s (List.mem_cons_of_mem s₀ hsm))
      refine ⟨hrec.1, ?_⟩
      simp only [List.length_cons, List.range', List.map_cons]
      simp [Event.isProgress, List.filter_append, hrec.2]

theorem appendScript_startTime (b : Bool) (name : String) (st : LoaderState) :
    (appendScript b name st).startTime = st.startTime := by
  cases b <;> simp [appendScript]

theorem loadScripts_startTime (u : Bool) (env : LoadEnv) (b : Bool)
    (scripts : List String) (st : LoaderState) (now : Nat) :
    (loadScripts u env b scripts st now).state.startTime = st.startTime :=
  (loadLoop_preserves_times u env b scripts.length scripts 0 st now).1

theorem loadGroupsPhase_startTime (u : Bool) (env : LoadEnv)
    (req : LoadRequest) (st : LoaderState) (now : Nat) :
    (loadGroupsPhase u env req st now).state.startTime = st.startTime := by
  simp only [loadGroupsPhase]
  by_cases h2 : req.dynamics.length > 0 <;> by_cases h1 : req.statics.length > 0 <;>
    simp [h1, h2, loadScripts_startTime]

theorem load_groups_error (u : Bool) (env : LoadEnv) (req : LoadRequest)
    (st : LoaderState) (now : Nat) (e : LoadError)
    (hg : (loadGroupsPhase u env req st now).result = .error e) :
    load u env req st now =
      ⟨(loadGroupsPhase u env req st now).trace,
       (loadGroupsPhase u env req st now).state,
       (loadGroupsPhase u env req st now).clock, .error e⟩ := by
  simp only [load]
  rw [hg]

theorem load_main_none (u : Bool) (env : LoadEnv) (req : LoadRequest)
    (st : LoaderState) (now : Nat)
    (hg : (loadGroupsPhase u env req st now).result = .ok ())
    (hm : req.main = none) :
    load u env req st now =
      ⟨(loadGroupsPhase u env req st now).trace ++ [Event.resolved],
       (loadGroupsPhase u env req st now).state,
       (loadGroupsPhase u env req st now).clock, .ok ()⟩ := by
  simp only [load]
  rw [hg, hm]

theorem load_main_blank (u : Bool) (env : LoadEnv) (req : LoadRequest)
    (st : LoaderState) (now : Nat)
    (hg : (loadGroupsPhase u env req st now).result = .ok ())
    (hm : req.main = some "") :
    load u env req st now =
      ⟨(loadGroupsPhase u env req st now).trace ++ [Event.resolved],
       (loadGroupsPhase u env req st now).state,
       (loadGroupsPhase u env req st now).clock, .ok ()⟩ := by
  simp only [load]
  rw [hg, hm]
  simp

theorem load_main_ok (u : Bool) (env : LoadEnv) (req : LoadRequest)
    (st : LoaderState) (now : Nat) (m : String)
    (hg : (loadGroupsPhase u env req st now).result = .ok ())
    (hm : req.main = some m) (hne : m ≠ "") (ho : (env m).ok = true) :
    load u env req st now =
      ⟨(loadGroupsPhase u env req st now).trace ++
         [Event.mainStart m, Event.resolved, Event.mainDone m,
          Event.finish
            ((((loadGroupsPhase u env req st now).clock + (env m).dur : ℚ) -
               (st.startTime : ℚ)) / 1000)],
       { appendScript true m (loadGroupsPhase u env req st now).state with
           endTime :=
             some ((loadGroupsPhase u env req st now).clock + (env m).dur) },
       (loadGroupsPhase u env req st now).clock + (env m).dur, .ok ()⟩ := by
  simp only [load]
  rw [hg, hm]
  simp only [if_neg hne]
  rw [loadScript_ok env true m (loadGroupsPhase u env req st now).state
    (loadGroupsPhase u env req st now).clock ho]
  simp only [finish, appendScript_startTime, loadGroupsPhase_startTime,
    Nat.cast_add]

theorem load_main_err (u : Bool) (env : LoadEnv) (req : LoadRequest)
    (st : LoaderState) (now : Nat) (m : String)
    (hg : (loadGroupsPhase u env req st now).result = .ok ())
    (hm : req.main = some m) (hne : m ≠ "") (ho : (env m).ok = false) :
    load u env req st now =
      ⟨(loadGroupsPhase u env req st now).trace ++
         [Event.mainStart m, Event.resolved, Event.mainFail m],
       appendScript true m (loadGroupsPhase u env req st now).state,
       (loadGroupsPhase u env req st now).clock + (env m).dur, .ok ()⟩ := by
  simp only [load]
  rw [hg, hm]
  simp only [if_neg hne]
  rw [loadScript_err env true m (loadGroupsPhase u env req st now).state
    (loadGroupsPhase u env req st now).clock ho]

theorem event_suffix_no_group (g t l₁ l₂ : List Event) (x : Event)
    (hgroup : ∀ e ∈ g, e.isGroupEvent = true)
    (htail : ∀ e ∈ t, e.isGroupEvent = false)
    (hx : x.isGroupEvent = false)
    (h : g ++ t = l₁ ++ x :: l₂) :
    ∀ e ∈ l₂, e.isGroupEvent = false := by
  rcases List.append_eq_append_iff.1 h with ⟨a', hl₁, ht⟩ | ⟨c', hgt, hcons⟩
  · intro e he
    refine htail e ?_
    rw [ht]
    exact List.mem_append_right a' (List.mem_cons_of_mem x he)
  · rcases c' with _ | ⟨c₀, c''⟩
    · intro e he
      simp only [List.nil_append] at hcons
      refine htail e ?_
      rw [← hcons]
      exact List.mem_cons_of_mem x he
    · exfalso
      simp only [List.cons_append, List.cons.injEq] at hcons
      obtain ⟨hx0, -⟩ := hcons
      have hxg : x ∈ g := by
        rw [hgt, hx0]
        simp
      have hx' := hgroup x hxg
      rw [hx] at hx'
      simp at hx'

theorem mainStart_not_mem_loadGroupsPhase (u : Bool) (env : LoadEnv)
    (req : LoadRequest) (st : LoaderState) (now : Nat) (m : String) :
    Event.mainStart m ∉ (loadGroupsPhase u env req st now).trace := by
  intro hmem
  have h := loadGroupsPhase_mem_isGroupEvent u env req st now _ hmem
  simp [Event.isGroupEvent] at h

theorem loadGroupsPhase_filter_finish (u : Bool) (env : LoadEnv)
    (req : LoadRequest) (st : LoaderState) (now : Nat) :
    (loadGroupsPhase u env req st now).trace.filter Event.isFinish = [] := by
  rw [List.filter_eq_nil_iff]
  intro e he
  have h := loadGroupsPhase_mem_isGroupEvent u env req st now e he
  cases e <;> simp_all [Event.isGroupEvent, Event.isFinish]

/-! ### The claims -/

/-- C6: for every loader state, `reset()` empties the dynamic container and
changes nothing else — the static container (which also holds the main
resource) and the session timing fields are untouched — and `reset` is
idempotent: applying it twice equals applying it once. -/
theorem C6_reset_idempotent (st : LoaderState) :
    (reset st).dynamicContainer = [] ∧
    (reset st).staticContainer = st.staticContainer ∧
    (reset st).startTime = st.startTime ∧
    (reset st).endTime = st.endTime ∧
    reset (reset st) = reset st := by
  simp [reset]

/-- C8: the claim says a request constructed without a `main` field causes
no main-resource load.  The code contradicts this: the `ScriptObject`
factory's destructuring defaults are the constructor functions themselves
(`statics = Array, dynamics = Array, main = String`), so for an input with
no fields the produced object has `main === String`, which is truthy, and
`load`'s guard `if (scriptObject.main)` therefore does attempt a
main-resource load (with the `String` function as the script name).  The
group guards also pass (`Array.length === 1 > 0`), though the group loader
then finds `Array[0] === undefined` (falsy) and performs no group load. -/
theorem C8_factory_defaults_bug :
    (ScriptObject {}).main = JSVal.fnString ∧
    mainLoadAttempted (ScriptObject {}) = true ∧
    (ScriptObject {}).statics = JSVal.fnArray ∧
    staticsGroupStarted (ScriptObject {}) = true ∧
    (ScriptObject {}).dynamics = JSVal.fnArray ∧
    dynamicsGroupStarted (ScriptObject {}) = true := by decide

/-- C9: the group loader treats an empty identifier sequence as immediate
vacuous success — no load attempted, no event emitted, state and clock
untouched — and a request with empty `statics`, empty `dynamics` and a
defined (nonempty, successfully loading) `main` performs exactly one load
call, namely for `main`, and the pipeline succeeds. -/
theorem C9_vacuous_success :
    (∀ (u : Bool) (env : LoadEnv) (b : Bool) (st : LoaderState) (now : Nat),
      loadScripts u env b [] st now = ⟨[], st, now, .ok ()⟩) ∧
    (∀ (u : Bool) (env : LoadEnv) (st : LoaderState) (now : Nat) (m : String),
      m ≠ "" → (env m).ok = true →
      (load u env { statics := [], dynamics := [], main := some m }
          st now).trace.filter Event.isLoadCall = [Event.mainStart m] ∧
      (load u env { statics := [], dynamics := [], main := some m }
          st now).result = .ok ()) := by
  constructor
  · intro u env b st now
    rfl
  · intro u env st now m hne ho
    have hg : (loadGroupsPhase u env
        { statics := [], dynamics := [], main := some m } st now).result =
        .ok () := rfl
    rw [load_main_ok u env
      { statics := [], dynamics := [], main := some m } st now m hg rfl hne ho]
    have htr : (loadGroupsPhase u env
        { statics := [], dynamics := [], main := some m } st now).trace = [] :=
      rfl
    constructor
    · simp only [htr, List.nil_append]
      simp [Event.isLoadCall]
    · rfl

theorem C9_vacuous_success_witness :
    (load true envOk { statics := [], dynamics := [], main := some "index" }
        st0 0).trace.filter Event.isLoadCall = [Event.mainStart "index"] ∧
    (load true envOk { statics := [], dynamics := [], main := some "index" }
        st0 0).result = .ok () :=
  C9_vacuous_success.2 true envOk st0 0 "index" (by decide) (by decide)

/-- C1: within a single group, scripts load strictly one at a time in the
given order.  Whenever the group trace decomposes around the start of the
load at position `i + 1`, the successful-completion event of position `i`
already occurs in the prefix (the next load begins only after the previous
load's success is observed), and the progress values observed are strictly
increasing (progress events occur in strict identifier order). -/
theorem C1_group_sequential_ordering (u : Bool) (env : LoadEnv) (b : Bool)
    (scripts : List String) (st : LoaderState) (now : Nat) :
    (∀ (l₁ l₂ : List Event) (bb : Bool) (i : Nat) (s : String),
      (loadScripts u env b scripts st now).trace =
        l₁ ++ Event.loadStart bb (i + 1) s :: l₂ →
      ∃ s', Event.loadDone i s' ∈ l₁) ∧
    List.Chain' (· < ·)
      (progressValues (loadScripts u env b scripts st now).trace) := by
  constructor
  · intro l₁ l₂ bb i s h
    rcases loadLoop_start_after_done u env b scripts.length scripts 0 st now
        l₁ l₂ bb (i + 1) s h with ⟨hi, -⟩ | ⟨-, s', hmem⟩
    · omega
    · exact ⟨s', by simpa using hmem⟩
  · exact loadLoop_progress_chain u env b scripts.length scripts 0 st now

theorem C1_group_sequential_ordering_witness :
    ∃ s', Event.loadDone 0 s' ∈
      [Event.loadStart true 0 "a", Event.loadDone 0 "a", Event.progress 1 2] :=
  (C1_group_sequential_ordering true envOk true ["a", "b"] st0 0).1
    [Event.loadStart true 0 "a", Event.loadDone 0 "a", Event.progress 1 2]
    [Event.loadDone 1 "b", Event.progress 2 2] true 0 "b" (by decide)

/-- C2: fail-fast.  If the script at position `k` of a group is the first
one that fails (all earlier positions hold nonempty names that load
successfully, position `k` holds a nonempty name whose load fails), then
the group's future rejects with the load error of that very resource (its
elapsed time and its underlying error value), and no identifier after
position `k` is ever attempted: every load issuance in the trace has
position at most `k`. -/
theorem C2_fail_fast (u : Bool) (env : LoadEnv) (b : Bool)
    (scripts : List String) (st : LoaderState) (now : Nat) (k : Nat)
    (s : String)
    (hget : scripts.get? k = some s) (hne : s ≠ "")
    (hfail : (env s).ok = false)
    (hpre : ∀ j, j < k → ∀ s', scripts.get? j = some s' →
      s' ≠ "" ∧ (env s').ok = true) :
    (loadScripts u env b scripts st now).result =
      .error (.resource { time := ((env s).dur : ℚ) / 1000,
                          payload := (env s).errVal }) ∧
    ∀ e ∈ (loadScripts u env b scripts st now).trace,
      ∀ bb i s', e = Event.loadStart bb i s' → i ≤ k := by
  have h := loadLoop_first_failure u env b scripts.length k scripts 0 st now s
    (by simp) hget hne hfail hpre
  refine ⟨h.1, fun e he bb i s' hse => ?_⟩
  have := h.2 e he bb i s' hse
  omega

theorem C2_fail_fast_witness :
    (loadScripts true envFailB true ["a", "b", "c"] st0 0).result =
      .error (.resource { time := ((envFailB "b").dur : ℚ) / 1000,
                          payload := (envFailB "b").errVal }) :=
  (C2_fail_fast true envFailB true ["a", "b", "c"] st0 0 1 "b" (by decide)
    (by decide) (by decide) (fun j hj s' hjs => by
      have hj0 : j = 0 := by omega
      subst hj0
      simp only [List.get?, Option.some.injEq] at hjs
      subst hjs
      exact ⟨by decide, by decide⟩)).1

/-- C4 (counterexample): the claim demands exactly N progress events for a
group of N identifiers that all load successfully with the logger enabled.
On the one-element group `[""]`, in an environment where every script
(including `""`) loads successfully, the loop guard `if (scripts[counter])`
treats the empty-string identifier as falsy and resolves immediately: zero
progress events are emitted although N = 1. -/
theorem C4_counterexample :
    (envOk "").ok = true ∧
    ((loadScripts true envOk true [""] st0 0).trace.filter
        Event.isProgress).length = 0 ∧
    ([""] : List String).length = 1 ∧ (0 : Nat) ≠ 1 := by decide

/-- C4 (amended): for every group of N nonempty identifiers that all load
successfully, with the logger enabled, the group succeeds and the progress
events emitted are exactly `{value: 1, total: N}` through
`{value: N, total: N}` in order — one per successful load, N in total, the
final one reporting completed = N of N. -/
theorem C4_progress_accounting (env : LoadEnv) (b : Bool)
    (scripts : List String) (st : LoaderState) (now : Nat)
    (h : ∀ s ∈ scripts, s ≠ "" ∧ (env s).ok = true) :
    (loadScripts true env b scripts st now).result = .ok () ∧
    (loadScripts true env b scripts st now).trace.filter Event.isProgress =
      (List.range' 1 scripts.length).map
        (fun v => Event.progress v scripts.length) :=
  loadLoop_all_success env b scripts.length scripts 0 st now (by simp) h

theorem C4_progress_accounting_witness :
    (loadScripts true envOk true ["a", "b"] st0 0).result = .ok () ∧
    (loadScripts true envOk true ["a", "b"] st0 0).trace.filter
        Event.isProgress =
      (List.range' 1 (["a", "b"] : List String).length).map
        (fun v => Event.progress v (["a", "b"] : List String).length) :=
  C4_progress_accounting envOk true ["a", "b"] st0 0 (by decide)

/-- C7 (counterexample): the claim says the error delivered to the Loader
when the first resource of a group fails is a `GroupLoadError` wrapping the
first `ResourceLoadError`.  On the group `["b"]` with `"b"` failing, the
delivered error is the bare resource error object itself — the group
loader's `.catch((err) => reject(err))` applies no wrapper. -/
theorem C7_counterexample :
    (loadScripts true envFailB true ["b"] st0 0).result =
      .error (.resource { time := 1 / 4, payload := "errB" }) ∧
    rejectedWithGroupWrapper (loadScripts true envFailB true ["b"] st0 0) =
      false := by
  have h : loadScripts true envFailB true ["b"] st0 0 =
      ⟨[Event.loadStart true 0 "b", Event.loadFail 0 "b"],
       appendScript true "b" st0, 0 + (envFailB "b").dur,
       .error (.resource { time := ((envFailB "b").dur : ℚ) / 1000,
                           payload := (envFailB "b").errVal })⟩ :=
    loadLoop_cons_err true envFailB true 1 0 "b" [] st0 0 (by decide) (by decide)
  rw [h]
  refine ⟨?_, rfl⟩
  norm_num [envFailB]

/-- C7 (amended): when the first failure of a group occurs at position `k`,
the error delivered to the Loader is the first `ResourceLoadError` itself,
propagated unmodified — never a `GroupLoadError` wrapper (no such wrapper
exists in the code). -/
theorem C7_error_unwrapped (u : Bool) (env : LoadEnv) (b : Bool)
    (scripts : List String) (st : LoaderState) (now : Nat) (k : Nat)
    (s : String)
    (hget : scripts.get? k = some s) (hne : s ≠ "")
    (hfail : (env s).ok = false)
    (hpre : ∀ j, j < k → ∀ s', scripts.get? j = some s' →
      s' ≠ "" ∧ (env s').ok = true) :
    (loadScripts u env b scripts st now).result =
      .error (.resource { time := ((env s).dur : ℚ) / 1000,
                          payload := (env s).errVal }) ∧
    rejectedWithGroupWrapper (loadScripts u env b scripts st now) = false := by
  have h := loadLoop_first_failure u env b scripts.length k scripts 0 st now s
    (by simp) hget hne hfail hpre
  refine ⟨h.1, ?_⟩
  simp only [rejectedWithGroupWrapper, loadScripts]
  rw [h.1]

theorem C7_error_unwrapped_witness :
    rejectedWithGroupWrapper
      (loadScripts false envAllFail false ["x", "y"] st0 0) = false :=
  (C7_error_unwrapped false envAllFail false ["x", "y"] st0 0 0 "x"
    (by decide) (by decide) (by decide)
    (fun j hj s' hjs => absurd hj (by omega))).2

/-- C3: main gating.  Whenever the main-resource load begins (the trace
decomposes around a `mainStart` event), both group loads have completed
successfully (the `Promise.all` join — and hence `load`'s returned future —
settled successfully) and no group-load event occurs after that point; and
if either group fails (the returned future rejects), the main resource is
never loaded. -/
theorem C3_main_gating (u : Bool) (env : LoadEnv) (req : LoadRequest)
    (st : LoaderState) (now : Nat) :
    (∀ (l₁ l₂ : List Event) (m : String),
      (load u env req st now).trace = l₁ ++ Event.mainStart m :: l₂ →
      (load u env req st now).result = .ok () ∧
      ∀ e ∈ l₂, e.isGroupEvent = false) ∧
    (∀ e, (load u env req st now).result = .error e →
      ∀ m, Event.mainStart m ∉ (load u env req st now).trace) := by
  rcases hg : (loadGroupsPhase u env req st now).result with e₀ | v
  · rw [load_groups_error u env req st now e₀ hg]
    constructor
    · intro l₁ l₂ m h
      exfalso
      refine mainStart_not_mem_loadGroupsPhase u env req st now m ?_
      rw [h]
      simp
    · intro e he m
      exact mainStart_not_mem_loadGroupsPhase u env req st now m
  · cases v
    rcases hm : req.main with _ | m
    · rw [load_main_none u env req st now hg hm]
      constructor
      · intro l₁ l₂ m h
        exfalso
        have h' : (loadGroupsPhase u env req st now).trace ++
            [Event.resolved] = l₁ ++ Event.mainStart m :: l₂ := h
        have hmem : Event.mainStart m ∈
            (loadGroupsPhase u env req st now).trace ++ [Event.resolved] := by
          rw [h']; simp
        rcases List.mem_append.1 hmem with h'' | h''
        · exact mainStart_not_mem_loadGroupsPhase u env req st now m h''
        · simp at h''
      · intro e he
        simp at he
    · by_cases hb : m = ""
      · subst hb
        rw [load_main_blank u env req st now hg hm]
        constructor
        · intro l₁ l₂ m h
          exfalso
          have h' : (loadGroupsPhase u env req st now).trace ++
              [Event.resolved] = l₁ ++ Event.mainStart m :: l₂ := h
          have hmem : Event.mainStart m ∈
              (loadGroupsPhase u env req st now).trace ++ [Event.resolved] := by
            rw [h']; simp
          rcases List.mem_append.1 hmem with h'' | h''
          · exact mainStart_not_mem_loadGroupsPhase u env req st now m h''
          · simp at h''
        · intro e he
          simp at he
      · by_cases ho : (env m).ok = true
        · rw [load_main_ok u env req st now m hg hm hb ho]
          constructor
          · intro l₁ l₂ m' h
            refine ⟨rfl, ?_⟩
            refine event_suffix_no_group _ _ l₁ l₂ (Event.mainStart m')
              (loadGroupsPhase_mem_isGroupEvent u env req st now)
              (fun e' he' => ?_) rfl h
            simp only [List.mem_cons, List.not_mem_nil, or_false] at he'
            rcases he' with rfl | rfl | rfl | rfl <;> rfl
          · intro e he
            simp at he
        · have ho' : (env m).ok = false := by simpa using ho
          rw [load_main_err u env req st now m hg hm hb ho']
          constructor
          · intro l₁ l₂ m' h
            refine ⟨rfl, ?_⟩
            refine event_suffix_no_group _ _ l₁ l₂ (Event.mainStart m')
              (loadGroupsPhase_mem_isGroupEvent u env req st now)
              (fun e' he' => ?_) rfl h
            simp only [List.mem_cons, List.not_mem_nil, or_false] at he'
            rcases he' with rfl | rfl | rfl <;> rfl
          · intro e he
            simp at he

theorem C3_main_gating_witness :
    Event.mainStart "m" ∉ (load true envAllFail
      { statics := ["a"], dynamics := [], main := some "m" } st0 0).trace := by
  have h1 : loadScripts true envAllFail true ["a"] st0 0 =
      ⟨[Event.loadStart true 0 "a", Event.loadFail 0 "a"],
       appendScript true "a" st0, 0 + (envAllFail "a").dur,
       .error (.resource { time := ((envAllFail "a").dur : ℚ) / 1000,
                           payload := (envAllFail "a").errVal })⟩ :=
    loadLoop_cons_err true envAllFail true 1 0 "a" [] st0 0 (by decide)
      (by decide)
  have hg : (loadGroupsPhase true envAllFail
      { statics := ["a"], dynamics := [], main := some "m" } st0 0).result =
      .error (.resource { time := ((envAllFail "a").dur : ℚ) / 1000,
                          payload := (envAllFail "a").errVal }) := by
    simp only [loadGroupsPhase]
    simp [h1]
  exact (C3_main_gating true envAllFail
    { statics := ["a"], dynamics := [], main := some "m" } st0 0).2
    (.resource { time := ((envAllFail "a").dur : ℚ) / 1000,
                 payload := (envAllFail "a").errVal })
    (by rw [load_groups_error true envAllFail
      { statics := ["a"], dynamics := [], main := some "m" } st0 0 _ hg])
    "m"

/-- C5: the finish signal is emitted exactly once per pipeline run, only
when `main` was present (and truthy) in the request and its load succeeded
after both groups succeeded; its payload is the total elapsed seconds,
session end time minus session start time, and the session end time is
recorded in the state.  Conversely a run whose request has no truthy
`main`, or whose main load fails, or whose groups fail, emits no finish
signal. -/
theorem C5_finish_signal (u : Bool) (env : LoadEnv) (req : LoadRequest)
    (st : LoaderState) (now : Nat) :
    (∀ q, Event.finish q ∈ (load u env req st now).trace →
      (∃ m, req.main = some m ∧ m ≠ "" ∧ (env m).ok = true) ∧
      (load u env req st now).result = .ok () ∧
      (load u env req st now).trace.filter Event.isFinish =
        [Event.finish q] ∧
      (load u env req st now).state.endTime =
        some (load u env req st now).clock ∧
      q = (((load u env req st now).clock : ℚ) - (st.startTime : ℚ)) / 1000) ∧
    (∀ m, req.main = some m → m ≠ "" → (env m).ok = true →
      (load u env req st now).result = .ok () →
      ∃ q, Event.finish q ∈ (load u env req st now).trace) := by
  rcases hg : (loadGroupsPhase u env req st now).result with e₀ | v
  · constructor
    · intro q hq
      rw [load_groups_error u env req st now e₀ hg] at hq
      exfalso
      have h := loadGroupsPhase_mem_isGroupEvent u env req st now _ hq
      simp [Event.isGroupEvent] at h
    · intro m hm hne ho hres
      rw [load_groups_error u env req st now e₀ hg] at hres
      simp at hres
  · cases v
    rcases hm : req.main with _ | m
    · constructor
      · intro q hq
        rw [load_main_none u env req st now hg hm] at hq
        exfalso
        rcases List.mem_append.1 hq with h' | h'
        · have h := loadGroupsPhase_mem_isGroupEvent u env req st now _ h'
          simp [Event.isGroupEvent] at h
        · simp at h'
      · intro m' hm'
        simp at hm'
    · by_cases hb : m = ""
      · subst hb
        constructor
        · intro q hq
          rw [load_main_blank u env req st now hg hm] at hq
          exfalso
          rcases List.mem_append.1 hq with h' | h'
          · have h := loadGroupsPhase_mem_isGroupEvent u env req st now _ h'
            simp [Event.isGroupEvent] at h
          · simp at h'
        · intro m' hm' hne ho hres
          simp only [Option.some.injEq] at hm'
          exact absurd hm'.symm hne
      · by_cases ho : (env m).ok = true
        · constructor
          · intro q hq
            rw [load_main_ok u env req st now m hg hm hb ho] at hq ⊢
            rcases List.mem_append.1 hq with h' | h'
            · exfalso
              have h := loadGroupsPhase_mem_isGroupEvent u env req st now _ h'
              simp [Event.isGroupEvent] at h
            · simp only [List.mem_cons, List.not_mem_nil, or_false] at h'
              rcases h' with h' | h' | h' | h'
              · exact absurd h' (by simp)
              · exact absurd h' (by simp)
              · exact absurd h' (by simp)
              · have hq0 := Event.finish.inj h'
                subst hq0
                refine ⟨⟨m, rfl, hb, ho⟩, rfl, ?_, rfl, ?_⟩
                · show ((loadGroupsPhase u env req st now).trace ++
                      [Event.mainStart m, Event.resolved, Event.mainDone m,
                       Event.finish _]).filter Event.isFinish = _
                  rw [List.filter_append, loadGroupsPhase_filter_finish]
                  simp [Event.isFinish]
                · show _ = ((((loadGroupsPhase u env req st now).clock +
                      (env m).dur : Nat) : ℚ) - (st.startTime : ℚ)) / 1000
                  push_cast
                  ring
          · intro m' hm' hne' ho' hres
            simp only [Option.some.injEq] at hm'
            subst hm'
            rw [load_main_ok u env req st now m hg hm hb ho]
            refine ⟨(((loadGroupsPhase u env req st now).clock : ℚ) +
                ((env m).dur : ℚ) - (st.startTime : ℚ)) / 1000, ?_⟩
            simp
        · have ho' : (env m).ok = false := by simpa using ho
          constructor
          · intro q hq
            rw [load_main_err u env req st now m hg hm hb ho'] at hq
            exfalso
            rcases List.mem_append.1 hq with h' | h'
            · have h := loadGroupsPhase_mem_isGroupEvent u env req st now _ h'
              simp [Event.isGroupEvent] at h
            · simp at h'
          · intro m' hm' hne' hoo hres
            simp only [Option.some.injEq] at hm'
            subst hm'
            rw [ho'] at hoo
            simp at hoo

theorem C5_finish_signal_witness :
    ∃ q, Event.finish q ∈
      (load true envOk { statics := [], dynamics := [], main := some "m" }
        st0 0).trace :=
  (C5_finish_signal true envOk
    { statics := [], dynamics := [], main := some "m" } st0 0).2 "m" rfl
    (by decide) (by decide) rfl

/-- C10: the promise returned by `load` settles without waiting for the
main-resource load, and a main-load failure is never propagated through it.
Whenever the main load has begun (a `mainStart` event is in the trace) for
a truthy `main` whose load fails, `load`'s returned future still resolves
successfully, no finish signal is emitted, and the trace ends with
`mainStart, resolved, mainFail` — the returned promise's resolution is
observed after the main load is issued but before the main load settles. -/
theorem C10_load_ignores_main (u : Bool) (env : LoadEnv) (req : LoadRequest)
    (st : LoaderState) (now : Nat) (m : String)
    (hm : req.main = some m) (hne : m ≠ "") (hfail : (env m).ok = false)
    (hstart : Event.mainStart m ∈ (load u env req st now).trace) :
    (load u env req st now).result = .ok () ∧
    (load u env req st now).trace.filter Event.isFinish = [] ∧
    ∃ p, (load u env req st now).trace =
      p ++ [Event.mainStart m, Event.resolved, Event.mainFail m] := by
  rcases hg : (loadGroupsPhase u env req st now).result with e₀ | v
  · exfalso
    rw [load_groups_error u env req st now e₀ hg] at hstart
    exact mainStart_not_mem_loadGroupsPhase u env req st now m hstart
  · cases v
    rw [load_main_err u env req st now m hg hm hne hfail]
    refine ⟨rfl, ?_, ⟨(loadGroupsPhase u env req st now).trace, rfl⟩⟩
    show ((loadGroupsPhase u env req st now).trace ++
        [Event.mainStart m, Event.resolved, Event.mainFail m]).filter
        Event.isFinish = []
    rw [List.filter_append, loadGroupsPhase_filter_finish]
    simp [Event.isFinish]

theorem C10_load_ignores_main_witness :
    (load true envFailM { statics := [], dynamics := [], main := some "m" }
        st0 0).result = .ok () ∧
    (load true envFailM { statics := [], dynamics := [], main := some "m" }
        st0 0).trace.filter Event.isFinish = [] ∧
    ∃ p, (load true envFailM
        { statics := [], dynamics := [], main := some "m" } st0 0).trace =
      p ++ [Event.mainStart "m", Event.resolved, Event.mainFail "m"] :=
  C10_load_ignores_main true envFailM
    { statics := [], dynamics := [], main := some "m" } st0 0 "m" rfl
    (by decide) (by decide) (by decide)

end ScriptLoader
